import Mathlib

/-!
Verification of the cache-and-conversion core of the `a-view` document
gateway, as a shallow embedding in Lean 4.

The embedding covers:
* the retention sweeper `cleanup_old_cache_files_safe`
  (`app/core/utils_safe.py`);
* the conversion engine and memoizer `convert_to_pdf` / `convert_to_html`
  with the in-process renderers `convert_csv_to_html` / `convert_txt_to_html`
  and the LibreOffice fallback `convert_with_libreoffice`
  (`app/core/utils.py`);
* the source resolver `download_and_cache_file` / `copy_and_cache_file`
  with `validate_file_extension` and the filename-derivation helpers
  (`app/core/utils.py`).

External effects (filesystem, Redis, HTTP fetch, subprocess outcomes,
wall-clock readings) are passed in explicitly as state/environment values,
so every function is a pure, executable Lean definition mirroring the
Python control flow.
-/

namespace AView

/-! ## Retention sweeper (`app/core/utils_safe.py`, `cleanup_old_cache_files_safe`)

One candidate file found by `rglob`, together with the outcomes of the
filesystem calls the sweep performs on it: `statOk` is whether
`cache_file.stat()` succeeds, `unlinkOk` whether `cache_file.unlink()`
succeeds.  A raised `OSError`/`Exception` from either call is caught by the
per-file `except` clauses and appended to `failed_deletions`. -/
structure SweepFile where
  path : String
  isFile : Bool
  mtime : Int
  size : Nat
  statOk : Bool
  unlinkOk : Bool
deriving Repr, DecidableEq

/-- The accumulators of the sweep body: `deleted_files`, `deleted_size`,
`failed_deletions` of `cleanup_old_cache_files_safe`. -/
structure SweepAcc where
  deletedFiles : List String
  deletedSize : Nat
  failedDeletions : List String
deriving Repr, DecidableEq

/-- The statistics record returned by `cleanup_old_cache_files_safe`
(the fields the claims are about). -/
structure SweepResult where
  deleted_count : Nat
  deleted_size : Nat
  failed_count : Nat
deriving Repr, DecidableEq

/-- One iteration of the per-file loop body (utils_safe.py lines 53-69):
skip non-files; compute `file_age = current_time - mtime` (a failing `stat`
raises and is recorded as a failure); delete when
`file_age > max_age_seconds`, recording a failed deletion if `unlink`
raises. -/
def processSweepFile (currentTime maxAgeSeconds : Int) (acc : SweepAcc)
    (f : SweepFile) : SweepAcc :=
  if f.isFile then
    if f.statOk then
      if currentTime - f.mtime > maxAgeSeconds then
        if f.unlinkOk then
          { acc with deletedFiles := acc.deletedFiles ++ [f.path],
                     deletedSize := acc.deletedSize + f.size }
        else
          { acc with failedDeletions := acc.failedDeletions ++ [f.path] }
      else acc
    else
      { acc with failedDeletions := acc.failedDeletions ++ [f.path] }
  else acc

/-- The directory walk (utils_safe.py lines 47-74 and 82-109): each list
element pairs the `time.time()` reading taken at that iteration's timeout
check with the file; the walk stops (`break`) as soon as the elapsed time
exceeds `timeout_seconds`. -/
def sweepDirLoop (startTime timeoutSeconds currentTime maxAgeSeconds : Int) :
    List (Int × SweepFile) → SweepAcc → SweepAcc
  | [], acc => acc
  | (t, f) :: rest, acc =>
    if t - startTime > timeoutSeconds then acc
    else sweepDirLoop startTime timeoutSeconds currentTime maxAgeSeconds rest
      (processSweepFile currentTime maxAgeSeconds acc f)

/-- The inputs of one sweep run: whether an exception is raised in the body
outside the per-file loops (e.g. settings access or logging, which only the
top-level `except` catches), the `start_time` and `current_time` clock
readings, and the contents of the two swept directories. -/
structure SweepWorld where
  bodyExc : Bool
  startTime : Int
  currentTime : Int
  cacheDirExists : Bool
  cacheFiles : List (Int × SweepFile)
  convertedDirExists : Bool
  convertedFiles : List (Int × SweepFile)

/-- The body of `cleanup_old_cache_files_safe` (the code inside the
top-level `try`, lines 28-138): `.error` models an exception escaping the
body. -/
def sweepBodyAcc (w : SweepWorld) (maxAgeHours timeoutSeconds : Int) :
    Except String SweepAcc :=
  if w.bodyExc then .error "fatal error in sweep body"
  else
    let maxAgeSeconds := maxAgeHours * 3600
    let acc0 : SweepAcc := ⟨[], 0, []⟩
    let acc1 := if w.cacheDirExists then
        sweepDirLoop w.startTime timeoutSeconds w.currentTime maxAgeSeconds
          w.cacheFiles acc0
      else acc0
    let acc2 := if w.convertedDirExists then
        sweepDirLoop w.startTime timeoutSeconds w.currentTime maxAgeSeconds
          w.convertedFiles acc1
      else acc1
    .ok acc2

/-- Function `cleanup_old_cache_files_safe` (utils_safe.py lines 14-156): runs the
body; on success returns the statistics of the accumulators; any exception
escaping the body is caught by the top-level `except Exception` (lines
140-156), which returns the default record with `deleted_count = 0`,
`deleted_size = 0` and `failed_count = 1`. -/
def cleanup_old_cache_files_safe (w : SweepWorld)
    (maxAgeHours timeoutSeconds : Int) : SweepResult :=
  match sweepBodyAcc w maxAgeHours timeoutSeconds with
  | .ok acc =>
    ⟨acc.deletedFiles.length, acc.deletedSize, acc.failedDeletions.length⟩
  | .error _ => ⟨0, 0, 1⟩

/-- Whether the sweep deletes a candidate file. -/
def sweepDeletes (currentTime maxAgeSeconds : Int) (f : SweepFile) : Bool :=
  f.isFile && f.statOk && decide (currentTime - f.mtime > maxAgeSeconds)
    && f.unlinkOk

/-- Whether the sweep records a failed deletion for a candidate file. -/
def sweepFails (currentTime maxAgeSeconds : Int) (f : SweepFile) : Bool :=
  f.isFile && (!f.statOk
    || (decide (currentTime - f.mtime > maxAgeSeconds) && !f.unlinkOk))

lemma processSweepFile_eq (currentTime maxAgeSeconds : Int) (acc : SweepAcc)
    (f : SweepFile) :
    processSweepFile currentTime maxAgeSeconds acc f =
      { deletedFiles := acc.deletedFiles ++
          (if sweepDeletes currentTime maxAgeSeconds f then [f.path] else []),
        deletedSize := acc.deletedSize +
          (if sweepDeletes currentTime maxAgeSeconds f then f.size else 0),
        failedDeletions := acc.failedDeletions ++
          (if sweepFails currentTime maxAgeSeconds f then [f.path] else []) } := by
  unfold processSweepFile sweepDeletes sweepFails
  rcases f with ⟨p, iF, mt, sz, st, ul⟩
  cases iF <;> cases st <;> cases ul <;>
    by_cases h : currentTime - mt > maxAgeSeconds <;>
    simp [h]

/-- When no iteration exceeds the timeout budget, the directory walk
processes every file and its effect is fully described by the
`sweepDeletes` / `sweepFails` predicates. -/
lemma sweepDirLoop_no_timeout (startTime timeoutSeconds currentTime maxAgeSeconds : Int)
    (l : List (Int × SweepFile)) (acc : SweepAcc)
    (h : ∀ p ∈ l, p.1 - startTime ≤ timeoutSeconds) :
    sweepDirLoop startTime timeoutSeconds currentTime maxAgeSeconds l acc =
      { deletedFiles := acc.deletedFiles ++
          (((l.map Prod.snd).filter (sweepDeletes currentTime maxAgeSeconds)).map
            SweepFile.path),
        deletedSize := acc.deletedSize +
          ((((l.map Prod.snd).filter (sweepDeletes currentTime maxAgeSeconds)).map
            SweepFile.size).sum),
        failedDeletions := acc.failedDeletions ++
          (((l.map Prod.snd).filter (sweepFails currentTime maxAgeSeconds)).map
            SweepFile.path) } := by
  induction l generalizing acc with
  | nil => simp [sweepDirLoop]
  | cons hd tl ih =>
    obtain ⟨t, f⟩ := hd
    have ht : ¬ (t - startTime > timeoutSeconds) := by
      have := h (t, f) (List.mem_cons_self _ _)
      omega
    rw [sweepDirLoop, if_neg ht,
      ih _ (fun p hp => h p (List.mem_cons_of_mem _ hp)),
      processSweepFile_eq]
    by_cases hd : sweepDeletes currentTime maxAgeSeconds f = true <;>
      by_cases hf : sweepFails currentTime maxAgeSeconds f = true <;>
      simp [hd, hf, List.filter_cons, List.append_assoc, Nat.add_assoc]

/-- Under the hypotheses of an undisturbed run (no body exception, both
directories present, clock within budget at every check), the accumulator
of a full sweep is characterised by `sweepDeletes` / `sweepFails` over the
concatenation of both directories' files. -/
lemma sweepBodyAcc_characterisation (w : SweepWorld) (maxAgeHours timeoutSeconds : Int)
    (hexc : w.bodyExc = false)
    (hcd : w.cacheDirExists = true) (hvd : w.convertedDirExists = true)
    (hto : ∀ p ∈ w.cacheFiles ++ w.convertedFiles,
      p.1 - w.startTime ≤ timeoutSeconds) :
    sweepBodyAcc w maxAgeHours timeoutSeconds = .ok
      { deletedFiles := (((w.cacheFiles ++ w.convertedFiles).map Prod.snd).filter
          (sweepDeletes w.currentTime (maxAgeHours * 3600))).map SweepFile.path,
        deletedSize := ((((w.cacheFiles ++ w.convertedFiles).map Prod.snd).filter
          (sweepDeletes w.currentTime (maxAgeHours * 3600))).map SweepFile.size).sum,
        failedDeletions := (((w.cacheFiles ++ w.convertedFiles).map Prod.snd).filter
          (sweepFails w.currentTime (maxAgeHours * 3600))).map SweepFile.path } := by
  have hc : ∀ p ∈ w.cacheFiles, p.1 - w.startTime ≤ timeoutSeconds :=
    fun p hp => hto p (List.mem_append_left _ hp)
  have hv : ∀ p ∈ w.convertedFiles, p.1 - w.startTime ≤ timeoutSeconds :=
    fun p hp => hto p (List.mem_append_right _ hp)
  unfold sweepBodyAcc
  simp only [hexc, Bool.false_eq_true, if_false, hcd, hvd, if_true]
  rw [sweepDirLoop_no_timeout _ _ _ _ _ _ hc,
    sweepDirLoop_no_timeout _ _ _ _ _ _ hv]
  simp [List.filter_append]

/-- C3: for every file in the cache or converted-output directory, the
retention sweep deletes the file if and only if its age
(`current_time - mtime`) is strictly greater than `max_age_hours` (in
seconds); a file whose age is exactly equal to or below the threshold is
retained.  Hypotheses: no exception escapes the body, both directories
exist, no iteration exceeds the timeout budget, every `stat`/`unlink` call
succeeds, and candidate paths are pairwise distinct. -/
theorem sweep_deletes_iff_strictly_older (w : SweepWorld)
    (maxAgeHours timeoutSeconds : Int) (t : Int) (f : SweepFile)
    (hexc : w.bodyExc = false)
    (hcd : w.cacheDirExists = true) (hvd : w.convertedDirExists = true)
    (hto : ∀ p ∈ w.cacheFiles ++ w.convertedFiles,
      p.1 - w.startTime ≤ timeoutSeconds)
    (hok : ∀ p ∈ w.cacheFiles ++ w.convertedFiles,
      (p.2).statOk = true ∧ (p.2).unlinkOk = true)
    (hnd : ((((w.cacheFiles ++ w.convertedFiles).map Prod.snd)).map
      SweepFile.path).Nodup)
    (hmem : (t, f) ∈ w.cacheFiles ++ w.convertedFiles)
    (hf : f.isFile = true) :
    ∃ acc, sweepBodyAcc w maxAgeHours timeoutSeconds = .ok acc ∧
      (f.path ∈ acc.deletedFiles ↔
        w.currentTime - f.mtime > maxAgeHours * 3600) := by
  refine ⟨_, sweepBodyAcc_characterisation w maxAgeHours timeoutSeconds
    hexc hcd hvd hto, ?_⟩
  have hfF : f ∈ (w.cacheFiles ++ w.convertedFiles).map Prod.snd :=
    List.mem_map_of_mem Prod.snd hmem
  obtain ⟨hstat, hunlink⟩ : f.statOk = true ∧ f.unlinkOk = true := hok _ hmem
  constructor
  · intro hdel
    simp only [List.mem_map] at hdel
    obtain ⟨g, hg, hgp⟩ := hdel
    rw [List.mem_filter] at hg
    have hgf : g = f :=
      List.inj_on_of_nodup_map hnd hg.1 hfF hgp
    subst hgf
    have := hg.2
    simp only [sweepDeletes, hf, hstat, hunlink, Bool.and_true, Bool.true_and,
      decide_eq_true_eq] at this
    exact this
  · intro hage
    refine List.mem_map_of_mem SweepFile.path ?_
    rw [List.mem_filter]
    refine ⟨hfF, ?_⟩
    simp [sweepDeletes, hf, hstat, hunlink, hage]

/-- Concrete instance of `sweep_deletes_iff_strictly_older`: with
`max_age_hours = 24` and `current_time = 100000`, a regular file with
`mtime = 100000 - 24*3600 - 60` (one minute past the threshold) is
deleted. -/
theorem sweep_deletes_iff_strictly_older_witness :
    ∃ acc, sweepBodyAcc
      { bodyExc := false, startTime := 0, currentTime := 100000,
        cacheDirExists := true,
        cacheFiles := [(1, ⟨"/cache/a.pdf", true, 100000 - 24*3600 - 60, 10,
          true, true⟩)],
        convertedDirExists := true,
        convertedFiles := [(2, ⟨"/converted/a.html", true, 100000 - 100, 5,
          true, true⟩)] } 24 300 = .ok acc ∧
      ("/cache/a.pdf" ∈ acc.deletedFiles ↔
        (100000 : Int) - (100000 - 24*3600 - 60) > 24 * 3600) :=
  sweep_deletes_iff_strictly_older _ 24 300 1
    ⟨"/cache/a.pdf", true, 100000 - 24*3600 - 60, 10, true, true⟩
    rfl rfl rfl (by decide) (by decide) (by decide) (by decide) rfl

/-- C4: if the deletion of one eligible file fails (its `unlink` raises),
the sweep still deletes every other eligible file whose deletion succeeds,
the failure is counted, and the returned result has a non-zero
`failed_count`; the sweep does not abort or raise. -/
theorem sweep_fault_tolerance (w : SweepWorld)
    (maxAgeHours timeoutSeconds : Int) (tb : Int) (fbad : SweepFile)
    (hexc : w.bodyExc = false)
    (hcd : w.cacheDirExists = true) (hvd : w.convertedDirExists = true)
    (hto : ∀ p ∈ w.cacheFiles ++ w.convertedFiles,
      p.1 - w.startTime ≤ timeoutSeconds)
    (hbadmem : (tb, fbad) ∈ w.cacheFiles ++ w.convertedFiles)
    (hbadf : fbad.isFile = true) (hbadstat : fbad.statOk = true)
    (hbadage : w.currentTime - fbad.mtime > maxAgeHours * 3600)
    (hbadul : fbad.unlinkOk = false) :
    ∃ acc, sweepBodyAcc w maxAgeHours timeoutSeconds = .ok acc ∧
      (∀ g ∈ (w.cacheFiles ++ w.convertedFiles).map Prod.snd,
        g.isFile = true → g.statOk = true →
        w.currentTime - g.mtime > maxAgeHours * 3600 → g.unlinkOk = true →
        g.path ∈ acc.deletedFiles) ∧
      0 < (cleanup_old_cache_files_safe w maxAgeHours timeoutSeconds).failed_count := by
  refine ⟨_, sweepBodyAcc_characterisation w maxAgeHours timeoutSeconds
    hexc hcd hvd hto, ?_, ?_⟩
  · intro g hg hgf hgs hga hgu
    refine List.mem_map_of_mem SweepFile.path ?_
    rw [List.mem_filter]
    exact ⟨hg, by simp [sweepDeletes, hgf, hgs, hga, hgu]⟩
  · have hbadF : fbad ∈ (w.cacheFiles ++ w.convertedFiles).map Prod.snd :=
      List.mem_map_of_mem Prod.snd hbadmem
    have hmemfail : fbad ∈ ((w.cacheFiles ++ w.convertedFiles).map Prod.snd).filter
        (sweepFails w.currentTime (maxAgeHours * 3600)) := by
      rw [List.mem_filter]
      exact ⟨hbadF, by simp [sweepFails, hbadf, hbadstat, hbadage, hbadul]⟩
    unfold cleanup_old_cache_files_safe
    rw [sweepBodyAcc_characterisation w maxAgeHours timeoutSeconds
      hexc hcd hvd hto]
    simpa using List.length_pos.mpr (List.ne_nil_of_mem
      (List.mem_map_of_mem SweepFile.path hmemfail))

/-- Concrete instance of `sweep_fault_tolerance`: one over-age file whose
`unlink` raises a permission error and one over-age file whose `unlink`
succeeds; the latter is still deleted and `failed_count` is positive. -/
theorem sweep_fault_tolerance_witness :
    ∃ acc, sweepBodyAcc
      { bodyExc := false, startTime := 0, currentTime := 200000,
        cacheDirExists := true,
        cacheFiles := [(1, ⟨"/cache/bad.doc", true, 0, 10, true, false⟩),
          (2, ⟨"/cache/good.doc", true, 0, 20, true, true⟩)],
        convertedDirExists := true, convertedFiles := [] } 24 300 = .ok acc ∧
      (∀ g ∈ ([(1, (⟨"/cache/bad.doc", true, 0, 10, true, false⟩ : SweepFile)),
          (2, ⟨"/cache/good.doc", true, 0, 20, true, true⟩)] ++
          ([] : List (Int × SweepFile))).map Prod.snd,
        g.isFile = true → g.statOk = true →
        (200000 : Int) - g.mtime > 24 * 3600 → g.unlinkOk = true →
        g.path ∈ acc.deletedFiles) ∧
      0 < (cleanup_old_cache_files_safe
        { bodyExc := false, startTime := 0, currentTime := 200000,
          cacheDirExists := true,
          cacheFiles := [(1, ⟨"/cache/bad.doc", true, 0, 10, true, false⟩),
            (2, ⟨"/cache/good.doc", true, 0, 20, true, true⟩)],
          convertedDirExists := true, convertedFiles := [] } 24 300).failed_count :=
  sweep_fault_tolerance _ 24 300 1 ⟨"/cache/bad.doc", true, 0, 10, true, false⟩
    rfl rfl rfl (by decide) (by decide) rfl rfl (by decide) rfl

/-- C1 counterexample: when an exception escapes the sweep body, the
top-level handler returns `deleted_count = 0`, `deleted_size = 0` but
`failed_count = 1` — not the all-zero record the claim states. -/
theorem sweep_safe_fatal_not_all_zero :
    cleanup_old_cache_files_safe
      { bodyExc := true, startTime := 0, currentTime := 0,
        cacheDirExists := false, cacheFiles := [],
        convertedDirExists := false, convertedFiles := [] } 24 300 =
      ⟨0, 0, 1⟩ ∧
    (⟨0, 0, 1⟩ : SweepResult) ≠ ⟨0, 0, 0⟩ := by
  constructor
  · rfl
  · decide

/-- C1 (amended): if any exception escapes the body of the retention sweep,
it is caught at the top level and the function returns the default record
`deleted_count = 0`, `deleted_size = 0`, `failed_count = 1` instead of
raising, so the scheduler never sees the exception. -/
theorem sweep_safe_fatal_returns_default (w : SweepWorld)
    (maxAgeHours timeoutSeconds : Int) (msg : String)
    (h : sweepBodyAcc w maxAgeHours timeoutSeconds = .error msg) :
    cleanup_old_cache_files_safe w maxAgeHours timeoutSeconds = ⟨0, 0, 1⟩ := by
  unfold cleanup_old_cache_files_safe
  rw [h]

/-- Concrete instance of `sweep_safe_fatal_returns_default`. -/
theorem sweep_safe_fatal_returns_default_witness :
    cleanup_old_cache_files_safe
      { bodyExc := true, startTime := 5, currentTime := 5,
        cacheDirExists := true, cacheFiles := [],
        convertedDirExists := true, convertedFiles := [] } 24 300 =
      ⟨0, 0, 1⟩ :=
  sweep_safe_fatal_returns_default _ 24 300 "fatal error in sweep body" rfl

/-! ## Conversion engine (`app/core/utils.py`)

Paths are modelled structurally: a directory part, a stem and a suffix
(Python `Path.stem` / `Path.suffix`, suffix including the leading dot). -/

/-- Lower-casing, as Python `str.lower()` on ASCII extensions. -/
def strLower (s : String) : String := String.mk (s.toList.map Char.toLower)

structure PyPath where
  dir : String
  stem : String
  ext : String
deriving Repr, DecidableEq

/-- Python `Path.name`. -/
def PyPath.name (p : PyPath) : String := p.stem ++ p.ext

/-- The full path string. -/
def PyPath.str (p : PyPath) : String := p.dir ++ "/" ++ p.stem ++ p.ext

/-- Python `input_path.suffix.lower()`. -/
def PyPath.suffixLower (p : PyPath) : String := strLower p.ext

/-- Error kinds of the conversion engine, matching the `HTTPException` /
`RuntimeError` raise sites of `utils.py`. -/
inductive ConvErr where
  | converterUnavailable
  | inputNotFound
  | conversionFailed
  | conversionTimeout
  | outputMissing
  | encodingError
deriving Repr, DecidableEq

/-- Outcome of one LibreOffice subprocess run: a timeout, or an exit with a
return code and whether the expected output file was produced. -/
inductive LOOutcome where
  | timeout
  | exited (code : Int) (produced : Bool)
deriving Repr, DecidableEq

/-- Observable conversion state: the set of files existing on disk, and a
ghost counter of how many times the conversion step (external converter or
in-process renderer pipeline) actually ran. -/
structure ConvState where
  fs : List String
  conversions : Nat
deriving Repr, DecidableEq

/-- Function `convert_with_libreoffice` (utils.py lines 549-603) and the
structurally identical `convert_with_libreoffice_async` (lines 606-666):
invoke LibreOffice on the input, expecting it to produce `targetPath`;
missing executable, a timeout, a nonzero exit code, or a missing output
file each raise. -/
def convert_with_libreoffice (sofficeFound : Bool) (lo : LOOutcome)
    (targetPath : String) (s : ConvState) : Except ConvErr String × ConvState :=
  if sofficeFound = false then (.error .converterUnavailable, s)
  else
    match lo with
    | .timeout => (.error .conversionTimeout, s)
    | .exited code produced =>
      if code ≠ 0 then (.error .conversionFailed, s)
      else if produced then (.ok targetPath, { s with fs := targetPath :: s.fs })
      else (.error .outputMissing, s)

/-- Function `convert_to_pdf` (utils.py lines 433-546): trivial passthrough for
`.pdf` inputs, then the memoizing existence check on
`{converted_dir}/{stem}.pdf`, then the LibreOffice invocation. -/
def convert_to_pdf (sofficeFound : Bool) (lo : LOOutcome) (input : PyPath)
    (convertedDir : String) (s : ConvState) : Except ConvErr String × ConvState :=
  if input.suffixLower = ".pdf" then (.ok input.str, s)
  else
    let pdfPath := convertedDir ++ "/" ++ input.stem ++ ".pdf"
    if pdfPath ∈ s.fs then (.ok pdfPath, s)
    else if sofficeFound = false then (.error .converterUnavailable, s)
    else if input.str ∉ s.fs then (.error .inputNotFound, s)
    else
      let s1 : ConvState := { s with conversions := s.conversions + 1 }
      match lo with
      | .timeout => (.error .conversionTimeout, s1)
      | .exited code produced =>
        if code ≠ 0 then (.error .conversionFailed, s1)
        else if produced then (.ok pdfPath, { s1 with fs := pdfPath :: s1.fs })
        else (.error .outputMissing, s1)

/-! ### CSV renderer (`convert_csv_to_html`, utils.py lines 794-858) -/

/-- The text encodings of the two multi-encoding read loops. -/
inductive Enc where
  | utf8
  | cp949
  | euckr
  | utf8sig
  | latin1
deriving Repr, DecidableEq

/-- The list `encodings = ['utf-8', 'cp949', 'euc-kr', 'utf-8-sig']` (line 805). -/
def csvEncodings : List Enc := [.utf8, .cp949, .euckr, .utf8sig]

/-- The list `encodings = ['utf-8', 'cp949', 'euc-kr', 'utf-8-sig', 'latin-1']`
(line 873). -/
def txtEncodings : List Enc := [.utf8, .cp949, .euckr, .utf8sig, .latin1]

/-- Outcome of one attempted read with a given encoding: success, a
`UnicodeDecodeError`/`UnicodeError` (caught by the loop, next encoding
tried), or any other exception (propagates out of the loop). -/
inductive ReadOutcome (α : Type) where
  | ok (v : α)
  | unicodeErr
  | otherErr
deriving Repr, DecidableEq

/-- The parsed CSV data (`pd.read_csv` result, as far as the rendering
uses it). -/
structure CsvData where
  rows : Nat
  cols : Nat
deriving Repr, DecidableEq

/-- Environment of `convert_csv_to_html`: whether `pandas`/`jinja2` import
(`ImportError` branch), the per-encoding outcome of `pd.read_csv`, and
whether template rendering plus the HTML write succeed. -/
structure CsvEnv where
  pandasAvailable : Bool
  read : Enc → ReadOutcome CsvData
  renderOk : Bool

/-- The encoding loop of `convert_csv_to_html` (lines 808-814): try each
encoding in order; `UnicodeDecodeError`/`UnicodeError` moves to the next
encoding, any other exception propagates (`.error`), exhaustion yields
`.ok none` (`df is None`). -/
def tryReadCsv (env : CsvEnv) : List Enc → Except Unit (Option (Enc × CsvData))
  | [] => .ok none
  | e :: rest =>
    match env.read e with
    | .ok df => .ok (some (e, df))
    | .unicodeErr => tryReadCsv env rest
    | .otherErr => .error ()

/-- Which route produced the CSV viewer page: the pandas renderer (with the
encoding that decoded the file) or the LibreOffice fallback. -/
inductive CsvRoute where
  | pandas (enc : Enc)
  | libre
deriving Repr, DecidableEq

/-- Function `convert_csv_to_html` (lines 794-858).  Every failure of the pandas
route — `ImportError`, a non-Unicode read error, exhaustion of the encoding
list (the `df is None` `ValueError`), or a template/render failure — is
caught by the `except` clauses at lines 851-858 and falls back to
`convert_with_libreoffice`. -/
def convert_csv_to_html (env : CsvEnv) (sofficeFound : Bool) (lo : LOOutcome)
    (htmlPath : String) (s : ConvState) :
    Except ConvErr (String × CsvRoute) × ConvState :=
  let fallback := fun (s : ConvState) =>
    match convert_with_libreoffice sofficeFound lo htmlPath s with
    | (.ok p, s') => (.ok (p, CsvRoute.libre), s')
    | (.error e, s') => (.error e, s')
  if env.pandasAvailable = false then fallback s
  else
    match tryReadCsv env csvEncodings with
    | .error () => fallback s
    | .ok none => fallback s
    | .ok (some (e, _)) =>
      if env.renderOk then (.ok (htmlPath, .pandas e), { s with fs := htmlPath :: s.fs })
      else fallback s

/-! ### TXT renderer (`convert_txt_to_html`, utils.py lines 861-941) -/

/-- Python's `latin-1` codec: total on bytes, every byte maps to the code
point of the same value. -/
def latin1Decode (bs : List Nat) : String :=
  String.mk (bs.map (fun b => Char.ofNat (b % 256)))

/-- Environment of `convert_txt_to_html`: the raw bytes of the file,
whether `open`/`read` succeed at all (an `OSError` is not a
`UnicodeError`, so it propagates out of the encoding loop), the outcomes of
the non-`latin-1` codecs on those bytes, and whether template rendering
plus the HTML write succeed. -/
structure TxtEnv where
  bytes : List Nat
  readable : Bool
  decode : Enc → List Nat → ReadOutcome String
  renderOk : Bool

/-- One attempted `open(txt_path, encoding=e).read()`: an unreadable file
raises `OSError`; the `latin-1` codec decodes every byte sequence; the
other codecs behave as the environment says. -/
def txtDecodeWith (env : TxtEnv) (e : Enc) : ReadOutcome String :=
  if env.readable = false then .otherErr
  else
    match e with
    | .latin1 => .ok (latin1Decode env.bytes)
    | e => env.decode e env.bytes

/-- The encoding loop of `convert_txt_to_html` (lines 877-885). -/
def tryDecodeTxt (env : TxtEnv) : List Enc → Except Unit (Option (String × Enc))
  | [] => .ok none
  | e :: rest =>
    match txtDecodeWith env e with
    | .ok content => .ok (some (content, e))
    | .unicodeErr => tryDecodeTxt env rest
    | .otherErr => .error ()

/-- Why the body of `convert_txt_to_html` raised (and hence fell back to
LibreOffice). -/
inductive TxtFail where
  | noEncoding
  | readErr
  | renderErr
deriving Repr, DecidableEq

/-- Result of the `try` body of `convert_txt_to_html`: rendered content, or
a raised exception with its cause — `.noEncoding` is the
`ValueError("텍스트 파일을 읽을 수 없습니다...")` raised when `content is None`
(line 888). -/
inductive TxtBody where
  | done (content : String) (enc : Enc)
  | raised (cause : TxtFail)
deriving Repr, DecidableEq

/-- The `try` body of `convert_txt_to_html` (lines 867-936). -/
def txtBodyOutcome (env : TxtEnv) : TxtBody :=
  match tryDecodeTxt env txtEncodings with
  | .error () => .raised .readErr
  | .ok none => .raised .noEncoding
  | .ok (some (content, e)) =>
    if env.renderOk then .done content e else .raised .renderErr

/-- Which route produced the TXT viewer page. -/
inductive TxtRoute where
  | rendered (enc : Enc)
  | libre (cause : TxtFail)
deriving Repr, DecidableEq

/-- Function `convert_txt_to_html` (lines 861-941): render the decoded text, any
exception falls back to `convert_with_libreoffice` (lines 938-941). -/
def convert_txt_to_html (env : TxtEnv) (sofficeFound : Bool) (lo : LOOutcome)
    (htmlPath : String) (s : ConvState) :
    Except ConvErr (String × TxtRoute) × ConvState :=
  match txtBodyOutcome env with
  | .done _ e => (.ok (htmlPath, .rendered e), { s with fs := htmlPath :: s.fs })
  | .raised cause =>
    match convert_with_libreoffice sofficeFound lo htmlPath s with
    | (.ok p, s') => (.ok (p, TxtRoute.libre cause), s')
    | (.error err, s') => (.error err, s')

/-! ### HTML conversion dispatch (`convert_to_html`, utils.py lines 1274-1326) -/

/-- Environment of `convert_to_html`: the CSV and TXT renderer
environments, success flags for the image / markdown / PDF-wrap in-process
renderers (each of which writes the output page on success), whether the
LibreOffice executable is found, and the outcome of a LibreOffice
invocation. -/
structure HtmlEnv where
  csv : CsvEnv
  txt : TxtEnv
  imageOk : Bool
  mdOk : Bool
  pdfViewOk : Bool
  sofficeFound : Bool
  lo : LOOutcome

/-- Function `convert_to_html` (lines 1274-1326): trivial passthrough for
`.html`/`.htm` inputs, then the memoizing existence check on
`{converted_dir}/{stem}.html`, then dispatch by extension: CSV and TXT use
their dedicated renderers, images / markdown / PDF use their viewer
renderers, and every other (office) format is converted to PDF by
LibreOffice and the PDF wrapped into a viewer page. -/
def convert_to_html (env : HtmlEnv) (input : PyPath) (convertedDir : String)
    (s : ConvState) : Except ConvErr String × ConvState :=
  if input.suffixLower = ".html" ∨ input.suffixLower = ".htm" then
    (.ok input.str, s)
  else
    let htmlPath := convertedDir ++ "/" ++ input.stem ++ ".html"
    if htmlPath ∈ s.fs then (.ok htmlPath, s)
    else
      let s1 : ConvState := { s with conversions := s.conversions + 1 }
      if input.suffixLower = ".csv" then
        match convert_csv_to_html env.csv env.sofficeFound env.lo htmlPath s1 with
        | (.ok pr, s') => (.ok pr.1, s')
        | (.error e, s') => (.error e, s')
      else if input.suffixLower = ".txt" then
        match convert_txt_to_html env.txt env.sofficeFound env.lo htmlPath s1 with
        | (.ok pr, s') => (.ok pr.1, s')
        | (.error e, s') => (.error e, s')
      else if input.suffixLower ∈ [".jpg", ".jpeg", ".png", ".gif", ".bmp"] then
        if env.imageOk then (.ok htmlPath, { s1 with fs := htmlPath :: s1.fs })
        else convert_with_libreoffice env.sofficeFound env.lo htmlPath s1
      else if input.suffixLower = ".md" then
        if env.mdOk then (.ok htmlPath, { s1 with fs := htmlPath :: s1.fs })
        else convert_with_libreoffice env.sofficeFound env.lo htmlPath s1
      else if input.suffixLower = ".pdf" then
        if env.pdfViewOk then (.ok htmlPath, { s1 with fs := htmlPath :: s1.fs })
        else (.error .conversionFailed, s1)
      else
        let pdfPath := convertedDir ++ "/" ++ input.stem ++ ".pdf"
        match convert_with_libreoffice env.sofficeFound env.lo pdfPath s1 with
        | (.ok _, s2) =>
          if env.pdfViewOk then (.ok htmlPath, { s2 with fs := htmlPath :: s2.fs })
          else (.error .conversionFailed, s2)
        | (.error e, s2) => (.error e, s2)

/-- Shared demo CSV environment: pandas available, every encoding attempt
raises `UnicodeDecodeError`, rendering would succeed. -/
def csvEnvAllUnicodeFail : CsvEnv :=
  { pandasAvailable := true, read := fun _ => .unicodeErr, renderOk := true }

/-- Shared demo CSV environment: only `cp949` decodes the file. -/
def csvEnvCp949 : CsvEnv :=
  { pandasAvailable := true,
    read := fun e => if e = .cp949 then .ok ⟨2, 3⟩ else .unicodeErr,
    renderOk := true }

/-- Shared demo TXT environment: readable file, no non-`latin-1` codec
accepts the bytes. -/
def txtEnvDemo : TxtEnv :=
  { bytes := [104, 105, 255], readable := true,
    decode := fun _ _ => .unicodeErr, renderOk := true }

/-- Shared demo environment for `convert_to_html`. -/
def htmlEnvDemo : HtmlEnv :=
  { csv := csvEnvCp949, txt := txtEnvDemo, imageOk := true, mdOk := true,
    pdfViewOk := true, sofficeFound := true, lo := .exited 0 true }

/-- C5: an input whose extension already matches the requested output
format (`.pdf` source with format `pdf`, `.html`/`.htm` source with format
`html`) is returned unchanged: same path, no filesystem write, and the
conversion counter untouched — the external converter is never invoked. -/
theorem convert_trivial_passthrough (sofficeFound : Bool) (lo : LOOutcome)
    (env : HtmlEnv) (input : PyPath) (convertedDir : String) (s : ConvState) :
    (input.suffixLower = ".pdf" →
      convert_to_pdf sofficeFound lo input convertedDir s = (.ok input.str, s)) ∧
    (input.suffixLower = ".html" ∨ input.suffixLower = ".htm" →
      convert_to_html env input convertedDir s = (.ok input.str, s)) := by
  constructor
  · intro h
    unfold convert_to_pdf
    rw [if_pos h]
  · intro h
    unfold convert_to_html
    rw [if_pos h]

/-- Concrete instance of `convert_trivial_passthrough` at a `.PDF` source
requested as PDF and a `.html` source requested as HTML. -/
theorem convert_trivial_passthrough_witness :
    convert_to_pdf true (.exited 0 true) ⟨"/cache", "a", ".PDF"⟩ "/conv"
      ⟨[], 0⟩ = (.ok "/cache/a.PDF", ⟨[], 0⟩) ∧
    convert_to_html htmlEnvDemo ⟨"/cache", "b", ".html"⟩ "/conv"
      ⟨[], 0⟩ = (.ok "/cache/b.html", ⟨[], 0⟩) :=
  ⟨(convert_trivial_passthrough true (.exited 0 true) htmlEnvDemo
      ⟨"/cache", "a", ".PDF"⟩ "/conv" ⟨[], 0⟩).1 (by decide),
   (convert_trivial_passthrough true (.exited 0 true) htmlEnvDemo
      ⟨"/cache", "b", ".html"⟩ "/conv" ⟨[], 0⟩).2 (Or.inl (by decide))⟩

lemma convert_with_libreoffice_ok {sof : Bool} {lo : LOOutcome} {t : String}
    {s : ConvState} {p : String} {s' : ConvState}
    (h : convert_with_libreoffice sof lo t s = (.ok p, s')) :
    p = t ∧ s' = { s with fs := t :: s.fs } := by
  rcases sof with _ | _
  · simp [convert_with_libreoffice] at h
  · rcases lo with _ | ⟨code, produced⟩
    · simp [convert_with_libreoffice] at h
    · by_cases hc : code = 0
      · subst hc
        rcases produced with _ | _
        · simp [convert_with_libreoffice] at h
        · simp only [convert_with_libreoffice, Bool.true_eq_false, if_false,
            ne_eq, not_true_eq_false, reduceIte, if_true,
            Prod.mk.injEq, Except.ok.injEq] at h
          exact ⟨h.1.symm, h.2.symm⟩
      · simp [convert_with_libreoffice, hc] at h

lemma convert_csv_to_html_ok {env : CsvEnv} {sof : Bool} {lo : LOOutcome}
    {htmlPath : String} {s : ConvState} {pr : String × CsvRoute} {s' : ConvState}
    (h : convert_csv_to_html env sof lo htmlPath s = (.ok pr, s')) :
    pr.1 = htmlPath ∧ s' = { s with fs := htmlPath :: s.fs } := by
  have hfb : ∀ (s0 : ConvState),
      (match convert_with_libreoffice sof lo htmlPath s0 with
       | (.ok p, s2) => ((.ok (p, CsvRoute.libre) :
            Except ConvErr (String × CsvRoute)), s2)
       | (.error e, s2) => (.error e, s2)) = (.ok pr, s') →
      s0 = s → pr.1 = htmlPath ∧ s' = { s with fs := htmlPath :: s.fs } := by
    intro s0 hm hs0
    rcases hlo : convert_with_libreoffice sof lo htmlPath s0 with ⟨r, s2⟩
    rw [hlo] at hm
    cases r with
    | ok q =>
      simp only [Prod.mk.injEq, Except.ok.injEq] at hm
      obtain ⟨hq, hcw⟩ := convert_with_libreoffice_ok hlo
      subst hq
      refine ⟨?_, ?_⟩
      · rw [← hm.1]
      · rw [← hm.2, hcw, hs0]
    | error e => simp at hm
  simp only [convert_csv_to_html] at h
  split at h
  · exact hfb s h rfl
  · split at h
    · exact hfb s h rfl
    · exact hfb s h rfl
    · split at h
      · simp only [Prod.mk.injEq, Except.ok.injEq] at h
        refine ⟨?_, h.2.symm⟩
        rw [← h.1]
      · exact hfb s h rfl

lemma convert_txt_to_html_ok {env : TxtEnv} {sof : Bool} {lo : LOOutcome}
    {htmlPath : String} {s : ConvState} {pr : String × TxtRoute} {s' : ConvState}
    (h : convert_txt_to_html env sof lo htmlPath s = (.ok pr, s')) :
    pr.1 = htmlPath ∧ s' = { s with fs := htmlPath :: s.fs } := by
  unfold convert_txt_to_html at h
  split at h
  · simp only [Prod.mk.injEq, Except.ok.injEq] at h
    refine ⟨?_, h.2.symm⟩
    rw [← h.1]
  · rcases hlo : convert_with_libreoffice sof lo htmlPath s with ⟨r, s2⟩
    rw [hlo] at h
    cases r with
    | ok q =>
      simp only [Prod.mk.injEq, Except.ok.injEq] at h
      obtain ⟨hq, hcw⟩ := convert_with_libreoffice_ok hlo
      subst hq
      refine ⟨?_, ?_⟩
      · rw [← h.1]
      · rw [← h.2, hcw]
    | error e => simp at h

/-- Any successful non-trivial, non-memoized `convert_to_html` run returns
the deterministic output path, leaves that file on disk, and bumps the
conversion counter exactly once. -/
lemma convert_to_html_ok_writes {env : HtmlEnv} {input : PyPath}
    {convertedDir : String} {s : ConvState} {p : String} {s₁ : ConvState}
    (hsfx : ¬(input.suffixLower = ".html" ∨ input.suffixLower = ".htm"))
    (hmemo : convertedDir ++ "/" ++ input.stem ++ ".html" ∉ s.fs)
    (h : convert_to_html env input convertedDir s = (.ok p, s₁)) :
    p = convertedDir ++ "/" ++ input.stem ++ ".html" ∧
    p ∈ s₁.fs ∧ s₁.conversions = s.conversions + 1 := by
  simp only [convert_to_html] at h
  rw [if_neg hsfx, if_neg hmemo] at h
  split at h
  · rcases hc : convert_csv_to_html env.csv env.sofficeFound env.lo
        (convertedDir ++ "/" ++ input.stem ++ ".html")
        { s with conversions := s.conversions + 1 } with ⟨r, s2⟩
    rw [hc] at h
    cases r with
    | ok pr =>
      simp only [Prod.mk.injEq, Except.ok.injEq] at h
      obtain ⟨hp, hst⟩ := convert_csv_to_html_ok hc
      refine ⟨?_, ?_, ?_⟩
      · rw [← h.1, hp]
      · rw [← h.1, hp, ← h.2, hst]
        exact List.mem_cons_self _ _
      · rw [← h.2, hst]
    | error e => simp at h
  · split at h
    · rcases hc : convert_txt_to_html env.txt env.sofficeFound env.lo
          (convertedDir ++ "/" ++ input.stem ++ ".html")
          { s with conversions := s.conversions + 1 } with ⟨r, s2⟩
      rw [hc] at h
      cases r with
      | ok pr =>
        simp only [Prod.mk.injEq, Except.ok.injEq] at h
        obtain ⟨hp, hst⟩ := convert_txt_to_html_ok hc
        refine ⟨?_, ?_, ?_⟩
        · rw [← h.1, hp]
        · rw [← h.1, hp, ← h.2, hst]
          exact List.mem_cons_self _ _
        · rw [← h.2, hst]
      | error e => simp at h
    · split at h
      · split at h
        · simp only [Prod.mk.injEq, Except.ok.injEq] at h
          refine ⟨h.1.symm, ?_, ?_⟩
          · rw [← h.1, ← h.2]
            exact List.mem_cons_self _ _
          · rw [← h.2]
        · obtain ⟨hp, hst⟩ := convert_with_libreoffice_ok h
          refine ⟨hp, ?_, ?_⟩
          · rw [hp, hst]
            exact List.mem_cons_self _ _
          · rw [hst]
      · split at h
        · split at h
          · simp only [Prod.mk.injEq, Except.ok.injEq] at h
            refine ⟨h.1.symm, ?_, ?_⟩
            · rw [← h.1, ← h.2]
              exact List.mem_cons_self _ _
            · rw [← h.2]
          · obtain ⟨hp, hst⟩ := convert_with_libreoffice_ok h
            refine ⟨hp, ?_, ?_⟩
            · rw [hp, hst]
              exact List.mem_cons_self _ _
            · rw [hst]
        · split at h
          · split at h
            · simp only [Prod.mk.injEq, Except.ok.injEq] at h
              refine ⟨h.1.symm, ?_, ?_⟩
              · rw [← h.1, ← h.2]
                exact List.mem_cons_self _ _
              · rw [← h.2]
            · simp at h
          · rcases hc : convert_with_libreoffice env.sofficeFound env.lo
                (convertedDir ++ "/" ++ input.stem ++ ".pdf")
                { s with conversions := s.conversions + 1 } with ⟨r, s2⟩
            rw [hc] at h
            cases r with
            | ok q =>
              split at h
              · rename_i p2 s2x heq
                simp only [Prod.mk.injEq, Except.ok.injEq] at heq
                obtain ⟨he1, he2⟩ := heq
                subst he1
                subst he2
                obtain ⟨hq, hst⟩ := convert_with_libreoffice_ok hc
                split at h
                · simp only [Prod.mk.injEq, Except.ok.injEq] at h
                  refine ⟨h.1.symm, ?_, ?_⟩
                  · rw [← h.1, ← h.2]
                    exact List.mem_cons_self _ _
                  · rw [← h.2, hst]
                · simp at h
              · rename_i e s2x heq
                simp at heq
            | error e =>
              split at h
              · rename_i p2 s2x heq
                simp at heq
              · simp at h

/-- C6: memoization of the conversion output.  For a non-trivial input
whose deterministic output file `{converted_dir}/{stem}.{format}` does not
yet exist, a successful `convert` call writes that file and bumps the
conversion counter exactly once, and an immediately repeated call returns
the identical path with the state untouched — neither the external
converter nor an in-process renderer runs again.  Stated for both
`convert_to_pdf` and `convert_to_html`. -/
theorem conversion_memoization (sofficeFound : Bool) (lo : LOOutcome)
    (env : HtmlEnv) (input : PyPath) (convertedDir : String) (s : ConvState) :
    (input.suffixLower ≠ ".pdf" →
      convertedDir ++ "/" ++ input.stem ++ ".pdf" ∉ s.fs →
      ∀ p s₁, convert_to_pdf sofficeFound lo input convertedDir s = (.ok p, s₁) →
        convert_to_pdf sofficeFound lo input convertedDir s₁ = (.ok p, s₁) ∧
        s₁.conversions = s.conversions + 1) ∧
    (¬(input.suffixLower = ".html" ∨ input.suffixLower = ".htm") →
      convertedDir ++ "/" ++ input.stem ++ ".html" ∉ s.fs →
      ∀ p s₁, convert_to_html env input convertedDir s = (.ok p, s₁) →
        convert_to_html env input convertedDir s₁ = (.ok p, s₁) ∧
        s₁.conversions = s.conversions + 1) := by
  constructor
  · intro hsfx hmemo p s₁ h
    have hkey : p = convertedDir ++ "/" ++ input.stem ++ ".pdf" ∧
        p ∈ s₁.fs ∧ s₁.conversions = s.conversions + 1 := by
      simp only [convert_to_pdf] at h
      rw [if_neg hsfx, if_neg hmemo] at h
      split at h
      · simp at h
      · split at h
        · simp at h
        · split at h
          · simp at h
          · split at h
            · simp at h
            · split at h
              · simp only [Prod.mk.injEq, Except.ok.injEq] at h
                refine ⟨h.1.symm, ?_, ?_⟩
                · rw [← h.1, ← h.2]
                  exact List.mem_cons_self _ _
                · rw [← h.2]
              · simp at h
    obtain ⟨hp, hmem, hconv⟩ := hkey
    refine ⟨?_, hconv⟩
    simp only [convert_to_pdf]
    rw [if_neg hsfx, if_pos (hp ▸ hmem), hp]
  · intro hsfx hmemo p s₁ h
    obtain ⟨hp, hmem, hconv⟩ := convert_to_html_ok_writes hsfx hmemo h
    refine ⟨?_, hconv⟩
    simp only [convert_to_html]
    rw [if_neg hsfx, if_pos (hp ▸ hmem), hp]

/-- Concrete instance of `conversion_memoization`: a `.docx` source
converted to PDF and to HTML; in both cases the repeated call returns the
same path without touching the state, and the conversion counter rose from
0 to 1. -/
theorem conversion_memoization_witness :
    (convert_to_pdf true (.exited 0 true) ⟨"/cache", "doc1", ".docx"⟩ "/conv"
        ⟨["/conv/doc1.pdf", "/cache/doc1.docx"], 1⟩ =
      (.ok "/conv/doc1.pdf", ⟨["/conv/doc1.pdf", "/cache/doc1.docx"], 1⟩) ∧
      (⟨["/conv/doc1.pdf", "/cache/doc1.docx"], 1⟩ : ConvState).conversions =
        (⟨["/cache/doc1.docx"], 0⟩ : ConvState).conversions + 1) ∧
    (convert_to_html htmlEnvDemo ⟨"/cache", "doc1", ".docx"⟩ "/conv"
        ⟨["/conv/doc1.html", "/conv/doc1.pdf", "/cache/doc1.docx"], 1⟩ =
      (.ok "/conv/doc1.html",
        ⟨["/conv/doc1.html", "/conv/doc1.pdf", "/cache/doc1.docx"], 1⟩) ∧
      (⟨["/conv/doc1.html", "/conv/doc1.pdf", "/cache/doc1.docx"], 1⟩ :
        ConvState).conversions =
        (⟨["/cache/doc1.docx"], 0⟩ : ConvState).conversions + 1) :=
  ⟨(conversion_memoization true (.exited 0 true) htmlEnvDemo
      ⟨"/cache", "doc1", ".docx"⟩ "/conv" ⟨["/cache/doc1.docx"], 0⟩).1
      (by decide) (by decide) "/conv/doc1.pdf"
      ⟨["/conv/doc1.pdf", "/cache/doc1.docx"], 1⟩ (by rfl),
   (conversion_memoization true (.exited 0 true) htmlEnvDemo
      ⟨"/cache", "doc1", ".docx"⟩ "/conv" ⟨["/cache/doc1.docx"], 0⟩).2
      (by decide) (by decide) "/conv/doc1.html"
      ⟨["/conv/doc1.html", "/conv/doc1.pdf", "/cache/doc1.docx"], 1⟩ (by rfl)⟩

lemma tryReadCsv_append (env : CsvEnv) (l1 l2 : List Enc)
    (h : ∀ e ∈ l1, env.read e = .unicodeErr) :
    tryReadCsv env (l1 ++ l2) = tryReadCsv env l2 := by
  induction l1 with
  | nil => rfl
  | cons e t ih =>
    have he := h e (List.mem_cons_self _ _)
    rw [List.cons_append, tryReadCsv, he]
    exact ih (fun x hx => h x (List.mem_cons_of_mem _ hx))

lemma csvFallback_eq (sof : Bool) (lo : LOOutcome) (htmlPath : String)
    (s : ConvState) :
    (match convert_with_libreoffice sof lo htmlPath s with
     | (.ok p, s2) => ((.ok (p, CsvRoute.libre) :
          Except ConvErr (String × CsvRoute)), s2)
     | (.error e, s2) => (.error e, s2)) =
    ((convert_with_libreoffice sof lo htmlPath s).1.map
      (fun p => (p, CsvRoute.libre)),
     (convert_with_libreoffice sof lo htmlPath s).2) := by
  rcases convert_with_libreoffice sof lo htmlPath s with ⟨r, s2⟩
  cases r <;> simp [Except.map]

/-- C2 counterexample: a CSV file none of whose configured encodings
decodes (`pd.read_csv` raises `UnicodeDecodeError` for every entry of
`['utf-8', 'cp949', 'euc-kr', 'utf-8-sig']`) does NOT surface an
`EncodingError`: the `ValueError` is caught by the `except Exception`
clause and the conversion falls back to LibreOffice, here succeeding. -/
theorem csv_encoding_exhaustion_no_encoding_error :
    (∀ e ∈ csvEncodings, csvEnvAllUnicodeFail.read e = .unicodeErr) ∧
    convert_csv_to_html csvEnvAllUnicodeFail true (.exited 0 true)
      "/conv/t.html" ⟨[], 0⟩ =
      (.ok ("/conv/t.html", .libre), ⟨["/conv/t.html"], 0⟩) ∧
    (Except.ok ("/conv/t.html", CsvRoute.libre) :
      Except ConvErr (String × CsvRoute)) ≠ .error .encodingError :=
  ⟨fun _ _ => rfl, rfl, fun h => Except.noConfusion h⟩

/-- C2 (amended): `convert_csv_to_html` tries the text encodings in order
(UTF-8, then the East-Asian encodings cp949 and euc-kr, then
UTF-8-with-BOM) until one decodes without error and renders with the first
that succeeds; if none of the encodings succeeds, the conversion does not
surface an `EncodingError` — the failure is swallowed and the converter
falls back to LibreOffice, whose result (success or failure) is what the
caller sees. -/
theorem csv_encoding_order_and_fallback (env : CsvEnv) (sof : Bool)
    (lo : LOOutcome) (htmlPath : String) (s : ConvState) :
    (∀ l1 e l2 df, csvEncodings = l1 ++ e :: l2 →
      (∀ e2 ∈ l1, env.read e2 = .unicodeErr) → env.read e = .ok df →
      env.pandasAvailable = true → env.renderOk = true →
      convert_csv_to_html env sof lo htmlPath s =
        (.ok (htmlPath, .pandas e), { s with fs := htmlPath :: s.fs })) ∧
    ((∀ e ∈ csvEncodings, env.read e = .unicodeErr) →
      convert_csv_to_html env sof lo htmlPath s =
        ((convert_with_libreoffice sof lo htmlPath s).1.map
          (fun p => (p, CsvRoute.libre)),
         (convert_with_libreoffice sof lo htmlPath s).2)) := by
  constructor
  · intro l1 e l2 df hsplit h1 hok hpa hro
    have htry : tryReadCsv env csvEncodings = .ok (some (e, df)) := by
      rw [hsplit, tryReadCsv_append env l1 (e :: l2) h1, tryReadCsv, hok]
    simp only [convert_csv_to_html, hpa, Bool.true_eq_false, if_false, htry,
      hro, if_true]
  · intro hall
    have htry : tryReadCsv env csvEncodings = .ok none := by
      have := tryReadCsv_append env csvEncodings [] hall
      rw [List.append_nil] at this
      exact this
    by_cases hpa : env.pandasAvailable = false
    · simp only [convert_csv_to_html, hpa, if_true]
      exact csvFallback_eq sof lo htmlPath s
    · simp only [convert_csv_to_html, hpa, if_false, htry]
      exact csvFallback_eq sof lo htmlPath s

/-- Concrete instance of `csv_encoding_order_and_fallback`: UTF-8 raises
`UnicodeDecodeError`, cp949 decodes; the rendered page uses cp949. -/
theorem csv_encoding_order_and_fallback_witness :
    convert_csv_to_html csvEnvCp949 true (.exited 0 true) "/conv/t.html"
      ⟨[], 0⟩ =
      (.ok ("/conv/t.html", .pandas .cp949), ⟨["/conv/t.html"], 0⟩) :=
  (csv_encoding_order_and_fallback csvEnvCp949 true (.exited 0 true)
    "/conv/t.html" ⟨[], 0⟩).1 [.utf8] .cp949 [.euckr, .utf8sig] ⟨2, 3⟩
    rfl (by decide) rfl rfl rfl

lemma convert_with_libreoffice_no_encoding_error (sof : Bool)
    (lo : LOOutcome) (t : String) (s : ConvState) :
    (convert_with_libreoffice sof lo t s).1 ≠
      Except.error ConvErr.encodingError := by
  unfold convert_with_libreoffice
  split
  · simp
  · split
    · simp
    · split
      · simp
      · split <;> simp

lemma tryDecodeTxt_latin1_last_ne_none (env : TxtEnv)
    (h : env.readable = true) :
    ∀ l, tryDecodeTxt env (l ++ [Enc.latin1]) ≠ .ok none := by
  intro l
  induction l with
  | nil => simp [tryDecodeTxt, txtDecodeWith, h]
  | cons e t ih =>
    cases hd : txtDecodeWith env e with
    | ok c => simp [tryDecodeTxt, hd]
    | unicodeErr => simpa [tryDecodeTxt, hd] using ih
    | otherErr => simp [tryDecodeTxt, hd]

/-- C10: the TXT encoding list ends with `latin-1`, which decodes every
byte sequence, so for every file that can be opened and read the
`content is None` branch of `convert_txt_to_html` is unreachable: the
decode loop never exhausts, the body never raises the encoding-exhaustion
`ValueError`, and the renderer never surfaces an encoding error. -/
theorem txt_latin1_exhaustion_unreachable (env : TxtEnv) (sof : Bool)
    (lo : LOOutcome) (htmlPath : String) (s : ConvState)
    (h : env.readable = true) :
    tryDecodeTxt env txtEncodings ≠ .ok none ∧
    txtBodyOutcome env ≠ .raised .noEncoding ∧
    (convert_txt_to_html env sof lo htmlPath s).1 ≠
      Except.error ConvErr.encodingError := by
  have h1 : tryDecodeTxt env txtEncodings ≠ .ok none := by
    have := tryDecodeTxt_latin1_last_ne_none env h
      [Enc.utf8, Enc.cp949, Enc.euckr, Enc.utf8sig]
    exact this
  have h2 : txtBodyOutcome env ≠ .raised .noEncoding := by
    unfold txtBodyOutcome
    split
    · simp
    · rename_i heq
      exact absurd heq h1
    · split <;> simp
  refine ⟨h1, h2, ?_⟩
  unfold convert_txt_to_html
  cases hb : txtBodyOutcome env with
  | done c e => simp
  | raised cause =>
    rcases hlo : convert_with_libreoffice sof lo htmlPath s with ⟨r, s2⟩
    have := convert_with_libreoffice_no_encoding_error sof lo htmlPath s
    rw [hlo] at this
    cases r with
    | ok q => simp
    | error e2 => simpa using this

/-- Concrete instance of `txt_latin1_exhaustion_unreachable` on a readable
file whose bytes no non-`latin-1` codec accepts. -/
theorem txt_latin1_exhaustion_unreachable_witness :
    tryDecodeTxt txtEnvDemo txtEncodings ≠ .ok none ∧
    txtBodyOutcome txtEnvDemo ≠ .raised .noEncoding ∧
    (convert_txt_to_html txtEnvDemo true (.exited 0 true) "/conv/t.html"
      ⟨[], 0⟩).1 ≠ Except.error ConvErr.encodingError :=
  txt_latin1_exhaustion_unreachable txtEnvDemo true (.exited 0 true)
    "/conv/t.html" ⟨[], 0⟩ rfl

/-! ## Source resolver (`app/core/utils.py`)

`download_and_cache_file` (lines 273-368) and `copy_and_cache_file`
(lines 371-431), with `validate_file_extension` (lines 163-171),
`generate_cache_key` (lines 122-125) and the filename-derivation code.
The MD5 digest is kept abstract as a `String → String` parameter. -/

/-- The allow-list `SUPPORTED_EXTENSIONS` (`app/domain/file_ext_definition.py`): the
union of text, image, office and document extensions. -/
def SUPPORTED_EXTENSIONS : List String :=
  [".txt", ".md",
   ".png", ".jpg", ".jpeg", ".gif", ".bmp", ".tiff", ".webp",
   ".doc", ".docx", ".odt", ".rtf", ".xls", ".xlsx", ".ods",
   ".ppt", ".pptx", ".odp",
   ".pdf", ".csv"]

/-- Index of the last `'.'` in a character list (Python `str.rfind('.')`,
as `Option`). -/
def lastDotIdx (cs : List Char) : Option Nat :=
  match cs.reverse.findIdx? (· == '.') with
  | some j => some (cs.length - 1 - j)
  | none => none

/-- Python `str.split(sep)` for a one-character separator, on character lists. -/
def splitOnChar (sep : Char) : List Char → List (List Char)
  | [] => [[]]
  | c :: rest =>
    if c = sep then [] :: splitOnChar sep rest
    else
      match splitOnChar sep rest with
      | [] => [[c]]
      | g :: gs => (c :: g) :: gs

/-- Python `Path(s).name`: the part after the last slash. -/
def pyName (s : String) : String :=
  String.mk ((splitOnChar '/' s.toList).getLastD [])

/-- Python `Path(s).suffix`: `name[i:]` for `i = name.rfind('.')` when
`0 < i < len(name) - 1`, else the empty string. -/
def pySuffix (s : String) : String :=
  let cs := (pyName s).toList
  match lastDotIdx cs with
  | some i => if 0 < i ∧ i < cs.length - 1 then String.mk (cs.drop i) else ""
  | none => ""

/-- Error kinds of the resolver, matching the `HTTPException` raise sites:
`wrapped500` models the `except Exception` handler of
`download_and_cache_file` re-raising a caught exception as a 500. -/
inductive ResolveErr where
  | unsupportedFormat (ext : String)
  | notFound
  | httpStatus (status : Nat)
  | networkErr
  | wrapped500 (inner : ResolveErr)
deriving Repr, DecidableEq

/-- Function `validate_file_extension` (lines 163-171): lower-cased suffix checked
against the allow-list; raises `HTTPException(400, 지원하지 않는 파일 형식)`
otherwise. -/
def validate_file_extension (filename : String) : Except ResolveErr String :=
  let file_ext := strLower (pySuffix filename)
  if SUPPORTED_EXTENSIONS.contains file_ext then .ok file_ext
  else .error (.unsupportedFormat file_ext)

/-- Function `generate_cache_key` (lines 122-125). -/
def generate_cache_key (md5 : String → String) (url : String) : String :=
  "aview:file:" ++ md5 url

/-- Hex digit value, as used by percent-decoding. -/
def hexVal (c : Char) : Option Nat :=
  if '0' ≤ c ∧ c ≤ '9' then some (c.toNat - '0'.toNat)
  else if 'a' ≤ c ∧ c ≤ 'f' then some (c.toNat - 'a'.toNat + 10)
  else if 'A' ≤ c ∧ c ≤ 'F' then some (c.toNat - 'A'.toNat + 10)
  else none

/-- Percent-decoding on characters (Python `urllib.parse.unquote`, byte
escapes mapped to the code point of the byte; malformed escapes are kept
verbatim). -/
def pctDecodeList : List Char → List Char
  | [] => []
  | '%' :: h1 :: h2 :: rest2 =>
    match hexVal h1, hexVal h2 with
    | some a, some b => Char.ofNat (16 * a + b) :: pctDecodeList rest2
    | _, _ => '%' :: pctDecodeList (h1 :: h2 :: rest2)
  | c :: rest => c :: pctDecodeList rest

/-- Python `unquote` on strings. -/
def percentDecode (s : String) : String := String.mk (pctDecodeList s.toList)

/-- Python `url.split('/')[-1].split('?')[0]` (line 287). -/
def lastSegment (url : String) : String :=
  String.mk ((splitOnChar '?'
    ((splitOnChar '/' url.toList).getLastD [])).headD [])

/-- The URL-derived fallback filename (lines 286-292):
`parsed_url = unquote(raw_filename) if raw_filename else "downloaded_file"`,
re-defaulted if empty. -/
def parsedUrlName (url : String) : String :=
  let raw := lastSegment url
  let p := if raw = "" then "downloaded_file" else percentDecode raw
  if p = "" then "downloaded_file" else p

/-- Python `str.strip('"\'')`: drop quote characters from both ends. -/
def stripQuotes (cs : List Char) : List Char :=
  ((cs.dropWhile (fun c => c == '"' || c == '\'')).reverse.dropWhile
    (fun c => c == '"' || c == '\'')).reverse

/-- Match a literal character sequence at the head of a list, returning
the remainder. -/
def dropExact : List Char → List Char → Option (List Char)
  | [], rest => some rest
  | _ :: _, [] => none
  | p :: ps, c :: cs => if c = p then dropExact ps cs else none

/-- Head-anchored match of the regex `filename[*]?=`, returning what
follows the `=`. -/
def filenameEqTail (cs : List Char) : Option (List Char) :=
  match dropExact "filename".toList cs with
  | none => none
  | some rest =>
    match rest with
    | '*' :: '=' :: tail => some tail
    | '=' :: tail => some tail
    | _ => none

/-- First match of `filename[*]?=([^;]+)` over the header value (the
`re.search` at line 326): scan left to right; the captured group is the
maximal nonempty run of non-`;` characters after the `=`. -/
def findFilenameValue : List Char → Option (List Char)
  | [] => none
  | c :: rest =>
    match filenameEqTail (c :: rest) with
    | some tail =>
      let v := tail.takeWhile (fun ch => ch != ';')
      if v = [] then findFilenameValue rest else some v
    | none => findFilenameValue rest

/-- The extracted and quote-stripped `filename=` value of a
`Content-Disposition` header. -/
def extractCdFilename (cd : String) : Option String :=
  (findFilenameValue cd.toList).map (fun v => String.mk (stripQuotes v))

/-- Lines 323-328: the header is consulted only when present and truthy
(a missing or empty header yields nothing), then the regex must match. -/
def headerFilename (cd : Option String) : Option String :=
  match cd with
  | none => none
  | some s => if s = "" then none else extractCdFilename s

/-- Value `original_filename` of the download path (lines 322-328): the
URL-derived name, overridden by the `Content-Disposition` value when the
regex matches. -/
def remoteOriginalFilename (url : String) (cd : Option String) : String :=
  match headerFilename cd with
  | some f => f
  | none => parsedUrlName url

/-- The filename preference the specification describes: the
`Content-Disposition` filename when the header yields one; otherwise the
URL's final path segment decoded from percent-encoding; otherwise the
generic default. -/
def specRemoteFilename (headerName : Option String) (urlSegment : String) :
    String :=
  match headerName with
  | some f => f
  | none =>
    if urlSegment = "" then "downloaded_file" else percentDecode urlSegment

/-- The HTTP response of a successful connection: status code and optional
`Content-Disposition` header. -/
structure HttpResponse where
  status : Nat
  contentDisposition : Option String
deriving Repr, DecidableEq

/-- Outcome of the `aiohttp` GET: a response, or a raised
`aiohttp.ClientError`. -/
inductive FetchOutcome where
  | ok (resp : HttpResponse)
  | clientErr
deriving Repr, DecidableEq

/-- Shared observable state of the remote resolver: the Redis string store
(`setex`/`get`, key → cached original filename) and the set of files
existing on disk. -/
structure RemoteWorld where
  redisStr : List (String × String)
  fs : List String
deriving Repr, DecidableEq

/-- The download branch of `download_and_cache_file` (lines 310-368): a
`ClientError` raises the 400 network error; a non-200 status raises an
`HTTPException` which the `except Exception` handler wraps into a 500, as
it also does to the unsupported-format `HTTPException` from
`validate_file_extension`; on success the body is streamed to the
deterministic cache path and the original filename stored in Redis. -/
def download_fetch_branch (md5 : String → String) (w : RemoteWorld)
    (url cacheDir : String) (fetch : FetchOutcome) :
    Except ResolveErr (String × String × Bool) × RemoteWorld :=
  match fetch with
  | .clientErr => (.error .networkErr, w)
  | .ok resp =>
    if resp.status ≠ 200 then
      (.error (.wrapped500 (.httpStatus resp.status)), w)
    else
      match validate_file_extension
          (remoteOriginalFilename url resp.contentDisposition) with
      | .error e => (.error (.wrapped500 e), w)
      | .ok file_ext =>
        (.ok (cacheDir ++ "/" ++ md5 url ++ file_ext,
              remoteOriginalFilename url resp.contentDisposition, false),
         ⟨(generate_cache_key md5 url,
            remoteOriginalFilename url resp.contentDisposition) :: w.redisStr,
          (cacheDir ++ "/" ++ md5 url ++ file_ext) :: w.fs⟩)

/-- Function `download_and_cache_file` (lines 273-368): consult the Redis cache
first; a cached filename whose deterministic cache path still exists is a
cache hit; otherwise download. -/
def download_and_cache_file (md5 : String → String) (w : RemoteWorld)
    (url : String) (fetch : FetchOutcome) (cacheDir : String) :
    Except ResolveErr (String × String × Bool) × RemoteWorld :=
  match List.lookup (generate_cache_key md5 url) w.redisStr with
  | some cached_filename =>
    match validate_file_extension cached_filename with
    | .error e => (.error e, w)
    | .ok file_ext =>
      if (cacheDir ++ "/" ++ md5 url ++ file_ext) ∈ w.fs then
        (.ok (cacheDir ++ "/" ++ md5 url ++ file_ext, cached_filename, true), w)
      else download_fetch_branch md5 w url cacheDir fetch
  | none => download_fetch_branch md5 w url cacheDir fetch

/-- Shared observable state of the local resolver: the Redis hash store
(`hset`/`hgetall`, key → (cached path, filename)) and the set of files
existing on disk. -/
structure LocalWorld where
  redisHash : List (String × (String × String))
  fs : List String
deriving Repr, DecidableEq

/-- Function `copy_and_cache_file` (lines 371-431): missing input raises 400;
the basename's extension is validated; a cached record whose path still
exists is a cache hit; otherwise the bytes are copied to the deterministic
cache path and the record stored with a 24h TTL. -/
def copy_and_cache_file (md5 : String → String) (w : LocalWorld)
    (path : String) (cacheDir : String) :
    Except ResolveErr (String × String × Bool) × LocalWorld :=
  if path ∉ w.fs then (.error .notFound, w)
  else
    match validate_file_extension (pyName path) with
    | .error e => (.error e, w)
    | .ok file_ext =>
      match List.lookup (generate_cache_key md5 path) w.redisHash with
      | some info =>
        if info.1 ∈ w.fs then (.ok (info.1, info.2, true), w)
        else
          (.ok (cacheDir ++ "/" ++ md5 path ++ file_ext, pyName path, false),
           ⟨(generate_cache_key md5 path,
              (cacheDir ++ "/" ++ md5 path ++ file_ext, pyName path)) ::
              w.redisHash,
            (cacheDir ++ "/" ++ md5 path ++ file_ext) :: w.fs⟩)
      | none =>
        (.ok (cacheDir ++ "/" ++ md5 path ++ file_ext, pyName path, false),
         ⟨(generate_cache_key md5 path,
            (cacheDir ++ "/" ++ md5 path ++ file_ext, pyName path)) ::
            w.redisHash,
          (cacheDir ++ "/" ++ md5 path ++ file_ext) :: w.fs⟩)

deriving instance DecidableEq for Except

lemma pctDecodeList_cons_ne_nil (c : Char) (rest : List Char) :
    pctDecodeList (c :: rest) ≠ [] := by
  unfold pctDecodeList
  split
  · rename_i heq
    exact absurd heq (by simp)
  · split <;> simp
  · simp

lemma percentDecode_ne_empty (s : String) (h : s ≠ "") :
    percentDecode s ≠ "" := by
  have hd : s.data ≠ [] := by
    intro hc
    exact h (String.ext hc)
  intro hc
  have hc2 : (percentDecode s).data = [] := by rw [hc]
  unfold percentDecode at hc2
  cases hsd : s.data with
  | nil => exact hd hsd
  | cons c rest =>
    have : s.toList = c :: rest := hsd
    rw [this] at hc2
    exact pctDecodeList_cons_ne_nil c rest hc2

lemma parsedUrlName_eq_if (url : String) :
    parsedUrlName url =
      if lastSegment url = "" then "downloaded_file"
      else percentDecode (lastSegment url) := by
  unfold parsedUrlName
  by_cases hr : lastSegment url = ""
  · simp [hr]
  · simp only [hr, if_false]
    rw [if_neg (percentDecode_ne_empty _ hr)]

lemma remoteOriginalFilename_eq_spec (url : String) (cd : Option String) :
    remoteOriginalFilename url cd =
      specRemoteFilename (headerFilename cd) (lastSegment url) := by
  unfold remoteOriginalFilename specRemoteFilename
  cases h : headerFilename cd
  · exact parsedUrlName_eq_if url
  · rfl

/-- A fresh (cache-missing) successful download: the file lands at the
deterministic cache path and the original filename is stored in Redis. -/
lemma download_and_cache_file_fresh (md5 : String → String) (w : RemoteWorld)
    (url cacheDir : String) (resp : HttpResponse) (ext : String)
    (hmiss : List.lookup (generate_cache_key md5 url) w.redisStr = none)
    (hstatus : resp.status = 200)
    (hval : validate_file_extension
      (remoteOriginalFilename url resp.contentDisposition) = .ok ext) :
    download_and_cache_file md5 w url (.ok resp) cacheDir =
      (.ok (cacheDir ++ "/" ++ md5 url ++ ext,
            remoteOriginalFilename url resp.contentDisposition, false),
       ⟨(generate_cache_key md5 url,
          remoteOriginalFilename url resp.contentDisposition) :: w.redisStr,
        (cacheDir ++ "/" ++ md5 url ++ ext) :: w.fs⟩) := by
  unfold download_and_cache_file
  rw [hmiss]
  unfold download_fetch_branch
  simp only [hstatus, ne_eq, not_true_eq_false, if_false, hval]

/-- C9: for a remote resolve that actually downloads, the returned and
stored original filename follows the preference order the spec gives: the
`Content-Disposition` filename when the header yields one, else the URL's
final path segment decoded from percent-encoding, else the generic
default `downloaded_file`. -/
theorem remote_filename_preference (md5 : String → String) (w : RemoteWorld)
    (url cacheDir : String) (resp : HttpResponse) (ext : String)
    (hmiss : List.lookup (generate_cache_key md5 url) w.redisStr = none)
    (hstatus : resp.status = 200)
    (hval : validate_file_extension
      (specRemoteFilename (headerFilename resp.contentDisposition)
        (lastSegment url)) = .ok ext) :
    download_and_cache_file md5 w url (.ok resp) cacheDir =
      (.ok (cacheDir ++ "/" ++ md5 url ++ ext,
            specRemoteFilename (headerFilename resp.contentDisposition)
              (lastSegment url), false),
       ⟨(generate_cache_key md5 url,
          specRemoteFilename (headerFilename resp.contentDisposition)
            (lastSegment url)) :: w.redisStr,
        (cacheDir ++ "/" ++ md5 url ++ ext) :: w.fs⟩) := by
  have he := remoteOriginalFilename_eq_spec url resp.contentDisposition
  rw [← he] at hval ⊢
  exact download_and_cache_file_fresh md5 w url cacheDir resp ext hmiss
    hstatus hval

/-- Concrete instance of `remote_filename_preference`: the
`Content-Disposition` header carries `filename="r2.csv"`, which wins over
the URL's percent-encoded final segment. -/
theorem remote_filename_preference_witness :
    download_and_cache_file (fun _ => "d41d8cd9") ⟨[], []⟩
      "http://h/d%20ata.csv"
      (.ok ⟨200, some "attachment; filename=\"r2.csv\""⟩) "/cache" =
      (.ok ("/cache/d41d8cd9.csv",
            specRemoteFilename
              (headerFilename (some "attachment; filename=\"r2.csv\""))
              (lastSegment "http://h/d%20ata.csv"), false),
       ⟨[(generate_cache_key (fun _ => "d41d8cd9") "http://h/d%20ata.csv",
          specRemoteFilename
            (headerFilename (some "attachment; filename=\"r2.csv\""))
            (lastSegment "http://h/d%20ata.csv"))],
        ["/cache/d41d8cd9.csv"]⟩) :=
  remote_filename_preference (fun _ => "d41d8cd9") ⟨[], []⟩
    "http://h/d%20ata.csv" "/cache" ⟨200, some "attachment; filename=\"r2.csv\""⟩
    ".csv" rfl rfl (by decide)

/-- C8: a resolved filename whose extension is outside the allow-list is
rejected by `validate_file_extension` and nothing is written: the world
(Redis and filesystem) is returned unchanged.  On the remote path the
unsupported-format `HTTPException` is re-wrapped by the generic
`except Exception` handler; on the local path it propagates directly.  In
both cases validation runs after filename resolution and before any cache
write. -/
theorem unsupported_extension_rejected_before_write (md5 : String → String)
    (wR : RemoteWorld) (wL : LocalWorld) (url path cacheDir : String)
    (resp : HttpResponse) (ext : String) :
    (List.lookup (generate_cache_key md5 url) wR.redisStr = none →
      resp.status = 200 →
      validate_file_extension
        (remoteOriginalFilename url resp.contentDisposition) =
        .error (.unsupportedFormat ext) →
      download_and_cache_file md5 wR url (.ok resp) cacheDir =
        (.error (.wrapped500 (.unsupportedFormat ext)), wR)) ∧
    (path ∈ wL.fs →
      validate_file_extension (pyName path) =
        .error (.unsupportedFormat ext) →
      copy_and_cache_file md5 wL path cacheDir =
        (.error (.unsupportedFormat ext), wL)) := by
  constructor
  · intro hmiss hstatus hval
    unfold download_and_cache_file
    rw [hmiss]
    unfold download_fetch_branch
    simp only [hstatus, ne_eq, not_true_eq_false, if_false, hval]
  · intro hmem hval
    unfold copy_and_cache_file
    rw [if_neg (by simpa using hmem), hval]

/-- Concrete instance of `unsupported_extension_rejected_before_write`:
`.exe` sources, remote and local, are rejected with the cache untouched. -/
theorem unsupported_extension_rejected_before_write_witness :
    download_and_cache_file (fun _ => "aa11") ⟨[], []⟩ "http://h/virus.exe"
      (.ok ⟨200, none⟩) "/cache" =
      (.error (.wrapped500 (.unsupportedFormat ".exe")), ⟨[], []⟩) ∧
    copy_and_cache_file (fun _ => "aa11") ⟨[], ["/tmp/evil.exe"]⟩
      "/tmp/evil.exe" "/cache" =
      (.error (.unsupportedFormat ".exe"), ⟨[], ["/tmp/evil.exe"]⟩) :=
  ⟨(unsupported_extension_rejected_before_write (fun _ => "aa11") ⟨[], []⟩
      ⟨[], ["/tmp/evil.exe"]⟩ "http://h/virus.exe" "/tmp/evil.exe" "/cache"
      ⟨200, none⟩ ".exe").1 rfl rfl (by decide),
   (unsupported_extension_rejected_before_write (fun _ => "aa11") ⟨[], []⟩
      ⟨[], ["/tmp/evil.exe"]⟩ "http://h/virus.exe" "/tmp/evil.exe" "/cache"
      ⟨200, none⟩ ".exe").2 (by decide) (by decide)⟩

/-- C7: resolving the same unchanged source twice yields
`cache_hit = false` then `cache_hit = true`, with both calls returning the
identical cache path.  Stated for both the remote resolver
(`download_and_cache_file`; the second call performs no fetch, so its
fetch outcome is arbitrary) and the local resolver
(`copy_and_cache_file`). -/
theorem resolve_twice_cache_hit (md5 : String → String) (wR : RemoteWorld)
    (wL : LocalWorld) (url path cacheDir : String) (resp : HttpResponse)
    (ext extL : String) (fetch2 : FetchOutcome) :
    (List.lookup (generate_cache_key md5 url) wR.redisStr = none →
      resp.status = 200 →
      validate_file_extension
        (remoteOriginalFilename url resp.contentDisposition) = .ok ext →
      ∃ p f wR', download_and_cache_file md5 wR url (.ok resp) cacheDir =
          (.ok (p, f, false), wR') ∧
        download_and_cache_file md5 wR' url fetch2 cacheDir =
          (.ok (p, f, true), wR')) ∧
    (path ∈ wL.fs →
      List.lookup (generate_cache_key md5 path) wL.redisHash = none →
      validate_file_extension (pyName path) = .ok extL →
      ∃ p f wL', copy_and_cache_file md5 wL path cacheDir =
          (.ok (p, f, false), wL') ∧
        copy_and_cache_file md5 wL' path cacheDir = (.ok (p, f, true), wL')) := by
  constructor
  · intro hmiss hstatus hval
    refine ⟨cacheDir ++ "/" ++ md5 url ++ ext,
      remoteOriginalFilename url resp.contentDisposition,
      ⟨(generate_cache_key md5 url,
         remoteOriginalFilename url resp.contentDisposition) :: wR.redisStr,
       (cacheDir ++ "/" ++ md5 url ++ ext) :: wR.fs⟩,
      download_and_cache_file_fresh md5 wR url cacheDir resp ext hmiss
        hstatus hval, ?_⟩
    unfold download_and_cache_file
    simp only [List.lookup, beq_self_eq_true, if_true, hval]
    rw [if_pos (List.mem_cons_self _ _)]
  · intro hmem hmiss hval
    refine ⟨cacheDir ++ "/" ++ md5 path ++ extL, pyName path,
      ⟨(generate_cache_key md5 path,
         (cacheDir ++ "/" ++ md5 path ++ extL, pyName path)) :: wL.redisHash,
       (cacheDir ++ "/" ++ md5 path ++ extL) :: wL.fs⟩, ?_, ?_⟩
    · unfold copy_and_cache_file
      rw [if_neg (by simpa using hmem), hval, hmiss]
    · unfold copy_and_cache_file
      rw [if_neg (by simp [List.mem_cons_of_mem _ hmem]), hval]
      simp only [List.lookup, beq_self_eq_true, if_true]
      rw [if_pos (List.mem_cons_self _ _)]

/-- Concrete instance of `resolve_twice_cache_hit` for a remote CSV and a
local XLSX source. -/
theorem resolve_twice_cache_hit_witness :
    (∃ p f wR', download_and_cache_file (fun _ => "bb22") ⟨[], []⟩
        "http://h/files/r.csv" (.ok ⟨200, none⟩) "/cache" =
        (.ok (p, f, false), wR') ∧
      download_and_cache_file (fun _ => "bb22") wR' "http://h/files/r.csv"
        .clientErr "/cache" = (.ok (p, f, true), wR')) ∧
    (∃ p f wL', copy_and_cache_file (fun _ => "cc33") ⟨[], ["/data/b.xlsx"]⟩
        "/data/b.xlsx" "/cache" = (.ok (p, f, false), wL') ∧
      copy_and_cache_file (fun _ => "cc33") wL' "/data/b.xlsx" "/cache" =
        (.ok (p, f, true), wL')) :=
  ⟨(resolve_twice_cache_hit (fun _ => "bb22") ⟨[], []⟩ ⟨[], ["/data/b.xlsx"]⟩
      "http://h/files/r.csv" "/data/b.xlsx" "/cache" ⟨200, none⟩ ".csv"
      ".xlsx" .clientErr).1 rfl rfl (by decide),
   (resolve_twice_cache_hit (fun _ => "cc33") ⟨[], []⟩ ⟨[], ["/data/b.xlsx"]⟩
      "http://h/files/r.csv" "/data/b.xlsx" "/cache" ⟨200, none⟩ ".csv"
      ".xlsx" .clientErr).2 (by decide) rfl (by decide)⟩

end AView
